import Mathlib

/-!
Verification development for the universal-video-downloader repository.

The server (server.js and the express server variant) and the React client
(App.tsx) are shallowly embedded: JavaScript strings become `List Char`,
byte streams become `List Nat`, the streaming request handler's event
callbacks become a step function on an explicit session state, and the
in-memory metadata cache becomes a function from keys to optional entries.
-/

/- ===== String helpers (JS string primitives over List Char) ===== -/

/-- JS `String.prototype.split(sep)` for a single-character separator,
on the character list of the string. Always returns a non-empty list. -/
def splitOnChar (sep : Char) : List Char → List (List Char)
  | [] => [[]]
  | c :: rest =>
      match splitOnChar sep rest with
      | [] => [[c]]
      | h :: t => if c = sep then [] :: h :: t else (c :: h) :: t

/-- Whitespace characters recognised by JS `String.prototype.trim`
(the ones relevant to cookie blobs). -/
def isSpaceChar (c : Char) : Bool :=
  c = ' ' || c = '\t' || c = '\n' || c = '\r'

/-- JS `String.prototype.trim`: strip whitespace from both ends. -/
def trimChars (l : List Char) : List Char :=
  ((l.dropWhile isSpaceChar).reverse.dropWhile isSpaceChar).reverse

/-- JS `line.startsWith('#')`. -/
def lineIsComment (l : List Char) : Bool :=
  match l with
  | c :: _ => c = '#'
  | [] => false

/-- JS `String.prototype.includes(needle)`: substring containment. -/
def hasSubChars (needle : List Char) : List Char → Bool
  | [] => decide (needle = [])
  | c :: rest => needle.isPrefixOf (c :: rest) || hasSubChars needle rest

/-- Numeric value of a digit list (most significant first). -/
def digitsToNat (ds : List Char) : Nat :=
  ds.foldl (fun acc c => acc * 10 + (c.toNat - 48)) 0

/-- JS `parseInt` restricted to the shapes the server feeds it: a string
beginning with a digit parses its leading digit run; anything else is NaN,
modelled as `none`. -/
def parseLeadingNat (l : List Char) : Option Nat :=
  match l with
  | [] => none
  | c :: _ => if c.isDigit then some (digitsToNat (l.takeWhile Char.isDigit)) else none

/- ===== Credential-blob validator (server.js validateCookies, lines 285-304;
identical in the express server variant) ===== -/

/-- One filter clause of `validateCookies`: a non-comment, non-blank line
whose tab-split has at least 6 fields. -/
def validCookieLine (l : List Char) : Bool :=
  !lineIsComment l && decide (0 < (trimChars l).length) &&
    decide (6 ≤ (splitOnChar '\t' l).length)

/-- server.js `validateCookies`: reject a falsy (empty) blob, split the
trimmed blob into lines, and accept iff at least one line passes
`validCookieLine`. The `lines.length === 0` early return of the source is
kept although a split never yields an empty list. -/
def validateCookies (blob : List Char) : Bool :=
  if blob = [] then false
  else
    let lines := splitOnChar '\n' (trimChars blob)
    if lines.length = 0 then false
    else decide (0 < (lines.filter validCookieLine).length)

/-- Formalisation of the spec's words for C7 (refinement comparison): a blob
is structurally valid per the cookie-jar shape when it is a set of
non-comment, tab-delimited lines each with at least 6 fields — i.e. every
non-comment, non-blank line has at least 6 tab-delimited fields, and at
least one such content line exists. -/
def specCookieJarValid (blob : List Char) : Bool :=
  let lines := splitOnChar '\n' (trimChars blob)
  let content := lines.filter (fun l => !lineIsComment l && decide (0 < (trimChars l).length))
  decide (0 < content.length) &&
    content.all (fun l => decide (6 ≤ (splitOnChar '\t' l).length))

/- ===== Range negotiation of the streaming endpoint
(express server variant, GET /api/stream-download, lines 187-227) ===== -/

/-- Response headers set by the streaming endpoint, kept structured; the
source renders contentRange as the template string
bytes OFFSET-*/* with the numeric offset interpolated. -/
inductive RespHeader where
  | contentDisposition (filename : List Char)
  | acceptRangesBytes
  | contentRange (startByte : Nat)
  | transferEncodingChunked
  | contentType (mime : List Char)
deriving DecidableEq

/-- Content-Type chosen from the requested format (lines 221-227). -/
def contentTypeFor (format : List Char) : List RespHeader :=
  if format = "mp4".data then [RespHeader.contentType "video/mp4".data]
  else if format = "mp3".data then [RespHeader.contentType "audio/mpeg".data]
  else if format = "webm".data then [RespHeader.contentType "video/webm".data]
  else []

/-- The endpoint's `parseInt(resumeFrom) || 0` on the raw query value. -/
def parseResumeFrom (raw : List Char) : Nat :=
  (parseLeadingNat raw).getD 0

/-- Status code and headers emitted by the streaming endpoint before the
subprocess is spawned (lines 206-227): offset 0 gives 200 with chunked
transfer, a positive offset gives 206 with a Content-Range starting at the
offset; Content-Disposition and Accept-Ranges are always set. The handler
receives no total size and has no other status branch. -/
def streamResponse (resumeFromByte : Nat) (format filename : List Char) :
    Nat × List RespHeader :=
  if 0 < resumeFromByte then
    (206, [RespHeader.contentDisposition filename, RespHeader.acceptRangesBytes,
           RespHeader.contentRange resumeFromByte] ++ contentTypeFor format)
  else
    (200, [RespHeader.contentDisposition filename, RespHeader.acceptRangesBytes,
           RespHeader.transferEncodingChunked] ++ contentTypeFor format)

/- ===== Streaming session machine (express server variant, the
event callbacks registered by GET /api/stream-download, lines 269-345) ===== -/

/-- Server-side state of one streaming session: the subprocess, the signals
sent to it, the bytes written to the HTTP response, the bytes-relayed
counter `totalBytes`, and the response/headers status. -/
structure SessionState where
  procAlive : Bool
  sigterms : Nat
  resBody : List Nat
  totalBytes : Nat
  headersSent : Bool
  resStatus : Nat
  resEnded : Bool
  errorJsonSent : Bool
  tempCookieExists : Bool
deriving DecidableEq

/-- Events delivered to the handler's callbacks: a stdout data chunk from
the extractor subprocess, subprocess close with an exit code, a subprocess
spawn/run error, and the client's HTTP connection closing. -/
inductive StreamEvent where
  | stdoutData (chunk : List Nat)
  | processClose (code : Int)
  | processError
  | clientClose
deriving DecidableEq

/-- Session state after the handler has set status and headers but before
any subprocess event (lines 206-271): status 206 for a positive resume
offset, else 200; nothing written yet; the temp cookie file exists iff the
request carried a valid credential blob. -/
def streamInit (resumeFromByte : Nat) (hasTempCookie : Bool) : SessionState :=
  { procAlive := true, sigterms := 0, resBody := [], totalBytes := 0,
    headersSent := false,
    resStatus := if 0 < resumeFromByte then 206 else 200,
    resEnded := false, errorJsonSent := false,
    tempCookieExists := hasTempCookie }

/-- One event callback of the streaming handler.
stdoutData (lines 277-284): `totalBytes += chunk.length; res.write(chunk)`.
processClose (lines 306-323): unlink the temp cookie file; on code 0 end
the response; on non-zero code send a 500 JSON error if headers were not
yet sent, else just end the (truncated) stream.
processError (lines 326-339): unlink the temp cookie file; 500 JSON error
if headers not sent, else end.
clientClose (lines 342-345): `ytdlpProcess.kill('SIGTERM')`; delivery of
SIGTERM terminates the extractor subprocess. -/
def streamStep (s : SessionState) (e : StreamEvent) : SessionState :=
  match e with
  | StreamEvent.stdoutData chunk =>
      { s with resBody := s.resBody ++ chunk,
               totalBytes := s.totalBytes + chunk.length,
               headersSent := true }
  | StreamEvent.processClose code =>
      let s1 := { s with tempCookieExists := false, procAlive := false }
      if code = 0 then { s1 with resEnded := true }
      else if s1.headersSent then { s1 with resEnded := true }
      else { s1 with resStatus := 500, errorJsonSent := true,
                     headersSent := true, resEnded := true }
  | StreamEvent.processError =>
      let s1 := { s with tempCookieExists := false, procAlive := false }
      if s1.headersSent then { s1 with resEnded := true }
      else { s1 with resStatus := 500, errorJsonSent := true,
                     headersSent := true, resEnded := true }
  | StreamEvent.clientClose =>
      { s with sigterms := s.sigterms + 1, procAlive := false }

/-- Run a session from its initial state over a list of events. -/
def streamRun (resumeFromByte : Nat) (hasTempCookie : Bool)
    (events : List StreamEvent) : SessionState :=
  events.foldl streamStep (streamInit resumeFromByte hasTempCookie)

/- ===== Temp-credential-file lifecycle of the yt-dlp invocations
(server.js analyzeVideoUrl lines 331-422 and downloadContent
lines 458-580) ===== -/

/-- Observable side effects of one yt-dlp invocation, in program order. -/
inductive SrvAction where
  | writeTempFile
  | invokeExtractor
  | unlinkTempFile
  | throwErr
  | returnResult
deriving DecidableEq

/-- The guard `userCookies && validateCookies(userCookies)` used by both
analyzeVideoUrl (line 356) and downloadContent (line 492): the blob must be
present, truthy (non-empty) and structurally accepted. -/
def cookiesAccepted (userCookies : Option (List Char)) : Bool :=
  match userCookies with
  | some blob => !blob.isEmpty && validateCookies blob
  | none => false

/-- Side-effect trace of server.js `analyzeVideoUrl`: with an accepted
credential blob it writes a temp cookie file, invokes the tool, and unlinks
the temp file both on success (line 366) and in the catch arm before
rethrowing (line 379); otherwise it invokes the tool with the fallback
file cookies or none, creating no temp file. `toolFails` selects whether
the ytdlp call throws. -/
def analyzeVideoUrlActions (userCookies : Option (List Char))
    (toolFails : Bool) : List SrvAction :=
  if cookiesAccepted userCookies then
    if toolFails then
      [SrvAction.writeTempFile, SrvAction.invokeExtractor,
       SrvAction.unlinkTempFile, SrvAction.throwErr]
    else
      [SrvAction.writeTempFile, SrvAction.invokeExtractor,
       SrvAction.unlinkTempFile, SrvAction.returnResult]
  else
    if toolFails then [SrvAction.invokeExtractor, SrvAction.throwErr]
    else [SrvAction.invokeExtractor, SrvAction.returnResult]

/-- Side-effect trace of server.js `downloadContent`, whose temp-cookie
handling (lines 490-519 and the catch arm at 559-564) has the same shape:
unlink on the success path and in the catch arm before rethrowing. -/
def downloadContentActions (userCookies : Option (List Char))
    (toolFails : Bool) : List SrvAction :=
  if cookiesAccepted userCookies then
    if toolFails then
      [SrvAction.writeTempFile, SrvAction.invokeExtractor,
       SrvAction.unlinkTempFile, SrvAction.throwErr]
    else
      [SrvAction.writeTempFile, SrvAction.invokeExtractor,
       SrvAction.unlinkTempFile, SrvAction.returnResult]
  else
    if toolFails then [SrvAction.invokeExtractor, SrvAction.throwErr]
    else [SrvAction.invokeExtractor, SrvAction.returnResult]

/- ===== Metadata analysis cache (server.js lines 18-31 and the cache
check/insert in POST /api/analyze, lines 94-139) ===== -/

/-- Fixed time-to-live of a cache entry: `CACHE_DURATION = 10 * 60 * 1000`. -/
def CACHE_DURATION : Nat := 10 * 60 * 1000

/-- Period of the eviction sweep: `setInterval(..., 5 * 60 * 1000)`. -/
def SWEEP_INTERVAL_MS : Nat := 5 * 60 * 1000

/-- One cache record: the analysis payload (abstracted to an identifier)
and the insertion timestamp. -/
structure CacheEntry where
  payload : Nat
  timestamp : Nat
deriving DecidableEq

/-- The analysis cache, a JS Map keyed by the (url, cookie-presence) cache
key, modelled as a function from keys to optional entries. -/
def Cache : Type := Nat → Option CacheEntry

/-- `analysisCache.set(key, entry)`. -/
def cacheSet (c : Cache) (k : Nat) (e : CacheEntry) : Cache :=
  fun k' => if k' = k then some e else c k'

/-- The handler's cache check (lines 98-102): return the cached payload
only when an entry is present and `now - timestamp < CACHE_DURATION`
holds strictly. -/
def cacheFreshLookup (c : Cache) (k now : Nat) : Option Nat :=
  match c k with
  | some e => if now - e.timestamp < CACHE_DURATION then some e.payload else none
  | none => none

/-- One analyze-request pass over the cache: on a fresh hit return the
cached payload and leave the cache untouched; otherwise compute the fresh
analysis and insert it with the current timestamp (lines 98-139). The
handler never deletes an entry. -/
def analyzeCacheStep (c : Cache) (k now fresh : Nat) : Cache × Nat :=
  match cacheFreshLookup c k now with
  | some d => (c, d)
  | none => (cacheSet c k { payload := fresh, timestamp := now }, fresh)

/-- The periodic sweep (lines 23-31): delete exactly the entries with
`now - timestamp > CACHE_DURATION`. -/
def sweepCache (c : Cache) (now : Nat) : Cache :=
  fun k =>
    match c k with
    | some e => if now - e.timestamp > CACHE_DURATION then none else some e
    | none => none

/- ===== Direct-file size probe (server.js getFileSize lines 321-329 and
the direct-file branch of POST /api/analyze, lines 104-122) ===== -/

/-- Outcome of the `axios.head(url)` call: the request may reject, or
respond with or without a Content-Length header value. -/
inductive HeadResult where
  | headErr
  | headOk (contentLength : Option (List Char))
deriving DecidableEq

/-- A JS value as stored in the analysis result's fileSize field. -/
inductive JsValue where
  | nullv
  | nanv
  | numv (n : Nat)
deriving DecidableEq

/-- server.js `getFileSize`: any HEAD error is caught and yields null; a
missing or empty Content-Length header yields null (the header string is
falsy); otherwise the header is fed to `parseInt`. It never throws. -/
def getFileSize (r : HeadResult) : JsValue :=
  match r with
  | HeadResult.headErr => JsValue.nullv
  | HeadResult.headOk none => JsValue.nullv
  | HeadResult.headOk (some v) =>
      if v.isEmpty then JsValue.nullv
      else
        match parseLeadingNat v with
        | some n => JsValue.numv n
        | none => JsValue.nanv

/-- The direct-file analysis response assembled by POST /api/analyze
(lines 104-122): a 200 JSON body whose fileSize field is whatever
`getFileSize` produced. Title/extension/filename fields are independent of
the probe and abstracted away. -/
structure DirectFileResponse where
  status : Nat
  typeIsFile : Bool
  fileSize : JsValue
deriving DecidableEq

/-- Direct-file branch of the analyze handler for a URL with a recognised
media extension. -/
def analyzeDirectFileResponse (h : HeadResult) : DirectFileResponse :=
  { status := 200, typeIsFile := true, fileSize := getFileSize h }

/- ===== Client retry policy (App.tsx stream-download client variant,
startDownload catch block lines 1051-1067 and handlePauseResume
lines 1081-1093) ===== -/

/-- A caught JS error: its `name` and `message` strings. -/
structure JsError where
  name : List Char
  message : List Char
deriving DecidableEq

/-- Action the catch block takes. -/
inductive RetryAction where
  | logAbort
  | scheduleRetry (delayMs : Nat) (resumeOffset : Nat)
  | surfaceError (message : List Char)
deriving DecidableEq

/-- The classification `err.message.includes('network') ||
err.message.includes('fetch')`. -/
def isTransientNetworkMsg (msg : List Char) : Bool :=
  hasSubChars "network".data msg || hasSubChars "fetch".data msg

/-- The user-facing message set once the retry bound is exhausted. -/
def manualResumeMsg : List Char :=
  ("Network error: Maximum retries exceeded. You can resume the download.").data

/-- The catch block of `startDownload`: an AbortError (raised when pause or
cancel aborts the fetch) is only logged; a transient network error with
`retryCount < 3` increments the counter and schedules a retry from the
current byte offset after a 2000 ms timeout; at the bound it surfaces the
manual-resume error; any other error surfaces its own message. Returns the
updated retry counter and the action. -/
def handleDownloadError (retryCount downloadedBytes : Nat) (e : JsError) :
    Nat × RetryAction :=
  if e.name = ("AbortError").data then (retryCount, RetryAction.logAbort)
  else if isTransientNetworkMsg e.message then
    if retryCount < 3 then
      (retryCount + 1, RetryAction.scheduleRetry 2000 downloadedBytes)
    else (retryCount, RetryAction.surfaceError manualResumeMsg)
  else (retryCount, RetryAction.surfaceError e.message)

/-- The error a deliberate pause produces: `handlePauseResume` calls
`abortController.abort()`, making the in-flight fetch reject with an
AbortError. -/
def pauseAbortError : JsError :=
  { name := ("AbortError").data, message := ("The user aborted a request.").data }

/- ===== Client fan-out downloader (App.tsx speed-boost variant,
downloadWithSpeedBoost lines 273-346 and downloadSequentially
lines 348-394) ===== -/

/-- Inclusive byte-range slice served for `Range: bytes=start-stop`:
bytes start..stop of the source. -/
def rangeSlice (source : List Nat) (start stop : Nat) : List Nat :=
  (source.drop start).take (stop + 1 - start)

/-- `Math.ceil(total / parallelConnections)`. -/
def chunkSizeFor (total n : Nat) : Nat := (total + n - 1) / n

/-- One parallel connection of `downloadWithSpeedBoost`: connection `i`
requests `Range: bytes=(i*chunkSize)-(min (i*chunkSize+chunkSize-1)
(total-1))` and accumulates the returned bytes; a connection whose start
is at or past the total returns early leaving its slot null. -/
def speedBoostChunk (source : List Nat) (chunkSize i : Nat) :
    Option (List Nat) :=
  let total := source.length
  let start := i * chunkSize
  if total ≤ start then none
  else some (rangeSlice source start (min (start + chunkSize - 1) (total - 1)))

/-- Bytes contributed by connection `i` to the final blob (a null slot
contributes nothing). -/
def speedBoostChunkBytes (source : List Nat) (chunkSize i : Nat) : List Nat :=
  (speedBoostChunk source chunkSize i).getD []

/-- `downloadWithSpeedBoost`: split the file into `n` ranges of size
`Math.ceil(total/n)`, fetch them concurrently, and once all finish
concatenate the non-null per-range buffers in range-index order (the
`chunks` array is indexed by range, not by completion). -/
def downloadWithSpeedBoost (source : List Nat) (n : Nat) : List Nat :=
  let c := chunkSizeFor source.length n
  (((List.range n).map (speedBoostChunk source c)).filterMap id).flatten

/-- `downloadSequentially`: read the single response body chunk by chunk in
arrival order, pushing each chunk, and build the blob from the accumulated
chunks. `arrivals` is the chunk sequence the stream delivered. -/
def downloadSequentially (arrivals : List (List Nat)) : List Nat :=
  (arrivals.foldl (fun acc c => acc ++ c) [])

/- ======================= Theorems ======================= -/

/-- C1 counterexample: for a resource whose known total is 100 bytes, a
request with resumeOffsetBytes = 200 (at or past the total) is answered by
the streaming endpoint with status 206, not the RangeNotSatisfiable 416
the claim requires — the handler has no 416 branch and never learns the
total. -/
theorem stream_offset_past_total_not_416 :
    100 ≤ 200 ∧
    (streamResponse (parseResumeFrom ("200").data) ("mp4").data ("v.mp4").data).1 = 206 ∧
    (streamResponse (parseResumeFrom ("200").data) ("mp4").data ("v.mp4").data).1 ≠ 416 := by
  decide

/-- C1 (amended): for every request to the GET streaming endpoint, if the
parsed resumeOffsetBytes is 0 the response has status 200 with
Accept-Ranges bytes; if it is positive the response has status 206 with a
Content-Range whose start equals the offset — unconditionally, regardless
of any total; the endpoint never signals 416. -/
theorem stream_response_range_negotiation (raw format filename : List Char) :
    (parseResumeFrom raw = 0 →
      (streamResponse (parseResumeFrom raw) format filename).1 = 200 ∧
      RespHeader.acceptRangesBytes ∈ (streamResponse (parseResumeFrom raw) format filename).2) ∧
    (0 < parseResumeFrom raw →
      (streamResponse (parseResumeFrom raw) format filename).1 = 206 ∧
      RespHeader.contentRange (parseResumeFrom raw)
        ∈ (streamResponse (parseResumeFrom raw) format filename).2) ∧
    (streamResponse (parseResumeFrom raw) format filename).1 ≠ 416 := by
  refine ⟨fun h => ?_, fun h => ?_, ?_⟩
  · rw [h]; simp [streamResponse]
  · simp [streamResponse, h]
  · by_cases h : 0 < parseResumeFrom raw <;> simp [streamResponse, h]

/-- Witness for C1's amended theorem at the spec's own scenarios:
resumeOffsetBytes 0 gives 200 with Accept-Ranges, and resumeOffsetBytes
4000000 gives 206 with a Content-Range starting at 4000000. -/
theorem stream_response_range_negotiation_witness :
    (streamResponse (parseResumeFrom ("0").data) ("mp4").data ("v.mp4").data).1 = 200 ∧
    (streamResponse (parseResumeFrom ("4000000").data) ("mp4").data ("v.mp4").data).1 = 206 ∧
    RespHeader.contentRange (parseResumeFrom ("4000000").data)
      ∈ (streamResponse (parseResumeFrom ("4000000").data) ("mp4").data ("v.mp4").data).2 := by
  have h0 := stream_response_range_negotiation ("0").data ("mp4").data ("v.mp4").data
  have h4 := stream_response_range_negotiation ("4000000").data ("mp4").data ("v.mp4").data
  exact ⟨(h0.1 (by decide)).1, (h4.2.1 (by decide)).1, (h4.2.1 (by decide)).2⟩

/-- Auxiliary accumulator form of the relay invariant: relaying a list of
stdout chunks appends their concatenation to the response body and adds
their total length to the bytes-relayed counter. -/
theorem relay_fold_aux (chunks : List (List Nat)) :
    ∀ s : SessionState,
      ((chunks.map StreamEvent.stdoutData).foldl streamStep s).resBody
          = s.resBody ++ chunks.flatten ∧
      ((chunks.map StreamEvent.stdoutData).foldl streamStep s).totalBytes
          = s.totalBytes + chunks.flatten.length := by
  induction chunks with
  | nil => intro s; simp
  | cons c t ih =>
      intro s
      simp only [List.map_cons, List.foldl_cons, List.flatten_cons, streamStep]
      have h := ih { s with resBody := s.resBody ++ c,
                            totalBytes := s.totalBytes + c.length,
                            headersSent := true }
      rw [h.1, h.2]
      constructor
      · simp [List.append_assoc]
      · simp [List.length_append]; omega

/-- C3: within a sequential streaming session, the byte sequence written to
the HTTP response body is exactly the concatenation, in arrival order, of
the chunks the extractor subprocess produced on stdout — no bytes added,
reordered or dropped — and the session's bytes-relayed counter ends equal
to the total length of the source stream (so a 10,000,000-byte resource
ends with counter 10,000,000). -/
theorem relay_preserves_source_order (chunks : List (List Nat))
    (resumeFromByte : Nat) (hasTempCookie : Bool) :
    (streamRun resumeFromByte hasTempCookie (chunks.map StreamEvent.stdoutData)).resBody
        = chunks.flatten ∧
    (streamRun resumeFromByte hasTempCookie (chunks.map StreamEvent.stdoutData)).totalBytes
        = chunks.flatten.length := by
  have h := relay_fold_aux chunks (streamInit resumeFromByte hasTempCookie)
  unfold streamRun
  rw [h.1, h.2]
  simp [streamInit]

/-- Once the subprocess has been sent a SIGTERM and is down, no later event
of the session revives it or retracts the signal. -/
theorem streamStep_killed (s : SessionState) (e : StreamEvent)
    (h1 : s.procAlive = false) (h2 : 1 ≤ s.sigterms) :
    (streamStep s e).procAlive = false ∧ 1 ≤ (streamStep s e).sigterms := by
  cases e with
  | stdoutData c => exact ⟨h1, h2⟩
  | processClose code =>
      simp only [streamStep]
      split
      · exact ⟨rfl, h2⟩
      · split
        · exact ⟨rfl, h2⟩
        · exact ⟨rfl, h2⟩
  | processError =>
      simp only [streamStep]
      split
      · exact ⟨rfl, h2⟩
      · exact ⟨rfl, h2⟩
  | clientClose => exact ⟨rfl, Nat.le_add_left 1 s.sigterms⟩

/-- A killed-and-signalled session state stays so across any remaining
event suffix. -/
theorem foldl_killed (t : List StreamEvent) :
    ∀ s : SessionState, s.procAlive = false → 1 ≤ s.sigterms →
      (t.foldl streamStep s).procAlive = false ∧ 1 ≤ (t.foldl streamStep s).sigterms := by
  induction t with
  | nil => intro s h1 h2; exact ⟨h1, h2⟩
  | cons e t ih =>
      intro s h1 h2
      have h := streamStep_killed s e h1 h2
      exact ih _ h.1 h.2

/-- C4: whenever the client's HTTP connection closes during a streaming
session, the close handler sends SIGTERM to the session's extractor
subprocess (`ytdlpProcess.kill('SIGTERM')`), and in every continuation of
the session the subprocess is no longer running — no orphaned subprocess
remains. Delivery of SIGTERM is modelled as terminating the subprocess
(yt-dlp does not override the default disposition). -/
theorem client_close_terminates_subprocess (events : List StreamEvent)
    (resumeFromByte : Nat) (hasTempCookie : Bool)
    (h : StreamEvent.clientClose ∈ events) :
    (streamRun resumeFromByte hasTempCookie events).procAlive = false ∧
    1 ≤ (streamRun resumeFromByte hasTempCookie events).sigterms := by
  unfold streamRun
  generalize streamInit resumeFromByte hasTempCookie = s
  induction events generalizing s with
  | nil => cases h
  | cons e t ih =>
      rcases List.mem_cons.mp h with he | ht
      · rw [List.foldl_cons, ← he]
        exact foldl_killed t _ rfl (Nat.le_add_left 1 s.sigterms)
      · exact ih ht (streamStep s e)

/-- Witness for C4: a session that streams one chunk and then sees the
client disconnect ends with the subprocess signalled and not running. -/
theorem client_close_terminates_subprocess_witness :
    (streamRun 0 false [StreamEvent.stdoutData [7], StreamEvent.clientClose]).procAlive = false ∧
    1 ≤ (streamRun 0 false [StreamEvent.stdoutData [7], StreamEvent.clientClose]).sigterms :=
  client_close_terminates_subprocess
    [StreamEvent.stdoutData [7], StreamEvent.clientClose] 0 false (by decide)

/-- C6: every invocation that materializes a temporary credential file
deletes it on every exit path. For analyzeVideoUrl and downloadContent the
side-effect trace contains a temp-file write exactly when it contains the
matching unlink (both on success and on extraction error); in the
streaming session, subprocess close (any exit code) and subprocess error
both leave no temp cookie file behind. -/
theorem temp_cookie_deleted_on_every_exit :
    (∀ (uc : Option (List Char)) (fail : Bool),
        (SrvAction.writeTempFile ∈ analyzeVideoUrlActions uc fail ↔
         SrvAction.unlinkTempFile ∈ analyzeVideoUrlActions uc fail)) ∧
    (∀ (uc : Option (List Char)) (fail : Bool),
        (SrvAction.writeTempFile ∈ downloadContentActions uc fail ↔
         SrvAction.unlinkTempFile ∈ downloadContentActions uc fail)) ∧
    (∀ (s : SessionState) (code : Int),
        (streamStep s (StreamEvent.processClose code)).tempCookieExists = false) ∧
    (∀ s : SessionState,
        (streamStep s StreamEvent.processError).tempCookieExists = false) := by
  refine ⟨?_, ?_, ?_, ?_⟩
  · intro uc fail
    unfold analyzeVideoUrlActions
    split <;> split <;> simp
  · intro uc fail
    unfold downloadContentActions
    split <;> split <;> simp
  · intro s code
    simp only [streamStep]
    split
    · rfl
    · split <;> rfl
  · intro s
    simp only [streamStep]
    split <;> rfl

/-- C8: when the extractor subprocess exits with a non-zero status, the
close handler sends a 500 response with a structured error body if the
response headers have not yet been sent; if headers were already flushed
it merely ends the stream, appending no error body and writing no further
bytes — the client is left a truncated stream. -/
theorem nonzero_exit_error_handling (s : SessionState) (code : Int)
    (hc : code ≠ 0) :
    (s.headersSent = false →
      (streamStep s (StreamEvent.processClose code)).resStatus = 500 ∧
      (streamStep s (StreamEvent.processClose code)).errorJsonSent = true) ∧
    (s.headersSent = true →
      (streamStep s (StreamEvent.processClose code)).resEnded = true ∧
      (streamStep s (StreamEvent.processClose code)).errorJsonSent = s.errorJsonSent ∧
      (streamStep s (StreamEvent.processClose code)).resBody = s.resBody) := by
  simp only [streamStep]
  constructor
  · intro h
    simp [hc, h]
  · intro h
    simp [hc, h]

/-- Witness for C8: a non-zero exit before any byte was written yields the
500 JSON error; after a first chunk has flushed the headers, the same exit
only ends the stream and leaves body and error flag untouched. -/
theorem nonzero_exit_error_handling_witness :
    ((streamStep (streamInit 0 false) (StreamEvent.processClose 1)).resStatus = 500 ∧
     (streamStep (streamInit 0 false) (StreamEvent.processClose 1)).errorJsonSent = true) ∧
    ((streamStep (streamStep (streamInit 0 false) (StreamEvent.stdoutData [5]))
        (StreamEvent.processClose 1)).resEnded = true ∧
     (streamStep (streamStep (streamInit 0 false) (StreamEvent.stdoutData [5]))
        (StreamEvent.processClose 1)).errorJsonSent
       = (streamStep (streamInit 0 false) (StreamEvent.stdoutData [5])).errorJsonSent ∧
     (streamStep (streamStep (streamInit 0 false) (StreamEvent.stdoutData [5]))
        (StreamEvent.processClose 1)).resBody
       = (streamStep (streamInit 0 false) (StreamEvent.stdoutData [5])).resBody) :=
  ⟨(nonzero_exit_error_handling (streamInit 0 false) 1 (by decide)).1 (by decide),
   (nonzero_exit_error_handling (streamStep (streamInit 0 false) (StreamEvent.stdoutData [5]))
      1 (by decide)).2 (by decide)⟩

/-- The concrete transient network error used to exercise the retry path:
a fetch failure whose message contains the substring the classifier looks
for. -/
def netErr : JsError :=
  { name := ("TypeError").data, message := ("Failed to fetch").data }

/-- C5 counterexample: the delay between retry attempts is the constant
2000 ms — the first and the second automatic retry wait exactly the same
time, so the delay is not increasing as the claim states. -/
theorem retry_delay_constant_not_increasing :
    (handleDownloadError 0 100 netErr).2 = RetryAction.scheduleRetry 2000 100 ∧
    (handleDownloadError 1 150 netErr).2 = RetryAction.scheduleRetry 2000 150 := by
  decide

/-- C5 (amended): the retry path is entered only on a transient network
classification — never on an AbortError, which is what a deliberate pause
or user abort raises — each retry waits a fixed 2000 ms (not an increasing
delay) and resumes from the current byte offset; retries happen only while
the counter is below 3 and increment it; at counter 3 a further transient
failure surfaces the user-facing manual-resume error; and the counter
never exceeds 3. -/
theorem retry_policy :
    (∀ (rc db : Nat) (e : JsError) (d off : Nat),
        (handleDownloadError rc db e).2 = RetryAction.scheduleRetry d off →
        e.name ≠ ("AbortError").data ∧ isTransientNetworkMsg e.message = true ∧
        rc < 3 ∧ d = 2000 ∧ off = db ∧ (handleDownloadError rc db e).1 = rc + 1) ∧
    (∀ rc db : Nat, (handleDownloadError rc db pauseAbortError).2 = RetryAction.logAbort) ∧
    (∀ (db : Nat) (e : JsError), e.name ≠ ("AbortError").data →
        isTransientNetworkMsg e.message = true →
        (handleDownloadError 3 db e).2 = RetryAction.surfaceError manualResumeMsg) ∧
    (∀ (rc db : Nat) (e : JsError), rc ≤ 3 → (handleDownloadError rc db e).1 ≤ 3) := by
  refine ⟨?_, ?_, ?_, ?_⟩
  · intro rc db e d off h
    by_cases h1 : e.name = ("AbortError").data
    · simp [handleDownloadError, h1] at h
    · by_cases h2 : isTransientNetworkMsg e.message = true
      · by_cases h3 : rc < 3
        · simp only [handleDownloadError, h1, h2, if_true, if_false, ite_true,
            ite_false, if_neg h1, if_pos h2, if_pos h3,
            RetryAction.scheduleRetry.injEq] at h
          exact ⟨h1, h2, h3, h.1.symm, h.2.symm,
            by simp [handleDownloadError, h1, h2, h3]⟩
        · simp [handleDownloadError, h1, h2, h3] at h
      · simp [handleDownloadError, h1, h2] at h
  · intro rc db
    simp [handleDownloadError, pauseAbortError]
  · intro db e hname htrans
    simp [handleDownloadError, hname, htrans]
  · intro rc db e hrc
    by_cases h1 : e.name = ("AbortError").data
    · simp [handleDownloadError, h1]
      exact hrc
    · by_cases h2 : isTransientNetworkMsg e.message = true
      · by_cases h3 : rc < 3
        · simp [handleDownloadError, h1, h2, h3]
          omega
        · simp [handleDownloadError, h1, h2, h3]
          exact hrc
      · simp [handleDownloadError, h1, h2]
        exact hrc

/-- Witness for C5's amended theorem: at the bound the transient error
surfaces the manual-resume message; a pause abort never schedules a retry;
and the counter stays within the bound. -/
theorem retry_policy_witness :
    (handleDownloadError 3 100 netErr).2 = RetryAction.surfaceError manualResumeMsg ∧
    (handleDownloadError 0 0 pauseAbortError).2 = RetryAction.logAbort ∧
    (handleDownloadError 2 5 netErr).1 ≤ 3 :=
  ⟨retry_policy.2.2.1 100 netErr (by decide) (by decide),
   retry_policy.2.1 0 0,
   retry_policy.2.2.2 2 5 netErr (by decide)⟩

/-- A JS split never produces an empty array of parts. -/
theorem splitOnChar_ne_nil (sep : Char) (l : List Char) :
    splitOnChar sep l ≠ [] := by
  cases l with
  | nil => simp [splitOnChar]
  | cons c rest =>
      simp only [splitOnChar]
      cases hr : splitOnChar sep rest with
      | nil => simp
      | cons h t =>
          by_cases hc : c = sep <;> simp [hc]

/-- C7 counterexample: a blob consisting of one malformed line and one
well-formed 6-field line is accepted by `validateCookies`, yet it is not
structurally valid per the cookie-jar shape of the claim (not every
non-comment line has at least 6 tab-delimited fields) — acceptance is not
"exactly when structurally valid". -/
theorem validateCookies_accepts_mixed_blob :
    validateCookies ("junk\na\tb\tc\td\te\tf").data = true ∧
    specCookieJarValid ("junk\na\tb\tc\td\te\tf").data = false := by
  decide

/-- C7 (amended): the validator accepts a blob exactly when it is non-empty
and at least one of its lines is a non-comment, non-blank line with at
least 6 tab-delimited fields (malformed sibling lines are ignored); and
whenever every line of the blob has fewer than 6 tab-delimited fields the
blob is rejected, the analysis request proceeds exactly as if no
credential had been supplied, and no temporary credential file is
created. -/
theorem validateCookies_existential_accept :
    (∀ blob : List Char, validateCookies blob = true ↔
        (blob ≠ [] ∧ (splitOnChar '\n' (trimChars blob)).any validCookieLine = true)) ∧
    (∀ (blob : List Char) (fail : Bool),
        (splitOnChar '\n' (trimChars blob)).all
            (fun l => decide ((splitOnChar '\t' l).length < 6)) = true →
        validateCookies blob = false ∧
        analyzeVideoUrlActions (some blob) fail = analyzeVideoUrlActions none fail ∧
        SrvAction.writeTempFile ∉ analyzeVideoUrlActions (some blob) fail) := by
  have hmain : ∀ blob : List Char, validateCookies blob = true ↔
      (blob ≠ [] ∧ (splitOnChar '\n' (trimChars blob)).any validCookieLine = true) := by
    intro blob
    unfold validateCookies
    by_cases hb : blob = []
    · simp [hb]
    · simp only [hb, if_false, ite_false, if_neg hb]
      have hne := splitOnChar_ne_nil '\n' (trimChars blob)
      have hlen : (splitOnChar '\n' (trimChars blob)).length ≠ 0 := by
        intro h
        exact hne (List.length_eq_zero.mp h)
      simp only [hlen, if_false, ite_false, if_neg hlen]
      constructor
      · intro h
        refine ⟨hb, ?_⟩
        have h2 : 0 < ((splitOnChar '\n' (trimChars blob)).filter validCookieLine).length :=
          of_decide_eq_true h
        have h3 : (splitOnChar '\n' (trimChars blob)).filter validCookieLine ≠ [] := by
          intro hnil
          rw [hnil] at h2
          exact Nat.lt_irrefl 0 h2
        rw [Ne, List.filter_eq_nil_iff] at h3
        push_neg at h3
        obtain ⟨a, ha, hval⟩ := h3
        exact List.any_eq_true.mpr ⟨a, ha, by simpa using hval⟩
      · intro h
        obtain ⟨x, hx, hval⟩ := List.any_eq_true.mp h.2
        apply decide_eq_true
        apply List.length_pos.mpr
        intro hnil
        have := List.filter_eq_nil_iff.mp hnil x hx
        exact this hval
  refine ⟨hmain, ?_⟩
  intro blob fail hall
  have hrej : validateCookies blob = false := by
    by_cases hb : blob = []
    · simp [validateCookies, hb]
    · rw [Bool.eq_false_iff]
      intro htrue
      obtain ⟨x, hx, hval⟩ := List.any_eq_true.mp ((hmain blob).mp htrue).2
      have hshort := List.all_eq_true.mp hall x hx
      have h6 : (6 : Nat) ≤ (splitOnChar '\t' x).length := by
        have := (Bool.and_eq_true _ _).mp hval
        exact of_decide_eq_true this.2
      have hlt : (splitOnChar '\t' x).length < 6 := of_decide_eq_true hshort
      omega
  have hacc : cookiesAccepted (some blob) = false := by
    simp [cookiesAccepted, hrej]
  constructor
  · exact hrej
  constructor
  · unfold analyzeVideoUrlActions
    rw [hacc]
    simp [cookiesAccepted]
  · unfold analyzeVideoUrlActions
    rw [hacc]
    cases fail <;> simp

/-- Witness for C7's amended theorem: the spec's malformed-blob scenario,
a single line with only 2 tab-delimited fields: rejected, the analysis
trace equals the credential-free trace, and no temp file is written. -/
theorem validateCookies_existential_accept_witness :
    validateCookies ("a\tb").data = false ∧
    analyzeVideoUrlActions (some ("a\tb").data) false = analyzeVideoUrlActions none false ∧
    SrvAction.writeTempFile ∉ analyzeVideoUrlActions (some ("a\tb").data) false :=
  validateCookies_existential_accept.2 ("a\tb").data false (by decide)

/-- C9: every metadata cache entry carries the fixed 10-minute TTL
(CACHE_DURATION = 600000 ms) and the sweep runs every 5 minutes
(300000 ms); the handler's lookup returns a cached entry exactly when its
age is strictly below the TTL; a handler step never deletes a key and
leaves every entry younger than the TTL unchanged (entries are immutable
once written, as far as any reader within the TTL can observe); and the
sweep is the only deletion, removing exactly the entries whose age exceeds
the TTL. -/
theorem metadata_cache_ttl_invariants :
    CACHE_DURATION = 600000 ∧ SWEEP_INTERVAL_MS = 300000 ∧
    (∀ (c : Cache) (k now : Nat) (e : CacheEntry), c k = some e →
        now - e.timestamp < CACHE_DURATION →
        cacheFreshLookup c k now = some e.payload) ∧
    (∀ (c : Cache) (k now : Nat) (e : CacheEntry), c k = some e →
        CACHE_DURATION ≤ now - e.timestamp →
        cacheFreshLookup c k now = none) ∧
    (∀ (c : Cache) (k now fresh k' : Nat) (e : CacheEntry), c k' = some e →
        ∃ e' : CacheEntry, (analyzeCacheStep c k now fresh).1 k' = some e') ∧
    (∀ (c : Cache) (k now fresh k' : Nat) (e : CacheEntry), c k' = some e →
        now - e.timestamp < CACHE_DURATION →
        (analyzeCacheStep c k now fresh).1 k' = some e) ∧
    (∀ (c : Cache) (now k : Nat) (e : CacheEntry),
        sweepCache c now k = some e ↔
          (c k = some e ∧ now - e.timestamp ≤ CACHE_DURATION)) := by
  refine ⟨rfl, rfl, ?_, ?_, ?_, ?_, ?_⟩
  · intro c k now e he hfresh
    simp [cacheFreshLookup, he, hfresh]
  · intro c k now e he hstale
    simp [cacheFreshLookup, he]
    omega
  · intro c k now fresh k' e he
    unfold analyzeCacheStep
    cases hl : cacheFreshLookup c k now with
    | some d => exact ⟨e, he⟩
    | none =>
        by_cases hk : k' = k
        · exact ⟨{ payload := fresh, timestamp := now }, by simp [cacheSet, hk]⟩
        · exact ⟨e, by simp [cacheSet, hk, he]⟩
  · intro c k now fresh k' e he hfresh
    unfold analyzeCacheStep
    cases hl : cacheFreshLookup c k now with
    | some d => exact he
    | none =>
        by_cases hk : k' = k
        · subst hk
          rw [cacheFreshLookup, he] at hl
          simp [hfresh] at hl
        · simp [cacheSet, hk, he]
  · intro c now k e
    unfold sweepCache
    cases hc : c k with
    | none => simp
    | some e' =>
        dsimp only
        by_cases hstale : now - e'.timestamp > CACHE_DURATION
        · rw [if_pos hstale]
          constructor
          · intro h
            simp at h
          · intro h
            have hee : e' = e := Option.some_inj.mp h.1
            rw [hee] at hstale
            have h2 := h.2
            omega
        · rw [if_neg hstale]
          constructor
          · intro h
            have hee : e' = e := Option.some_inj.mp h
            constructor
            · rw [hee]
            · rw [← hee]
              omega
          · intro h
            exact h.1

/-- A concrete single-entry cache used to exercise the cache theorems. -/
def witnessCache : Cache :=
  fun k => if k = 1 then some { payload := 42, timestamp := 1000 } else none

/-- Witness for C9: a fresh entry is served by the lookup, survives an
unrelated handler step unchanged, and survives a sweep that runs before
its TTL expires. -/
theorem metadata_cache_ttl_invariants_witness :
    cacheFreshLookup witnessCache 1 2000 = some 42 ∧
    (analyzeCacheStep witnessCache 5 2000 7).1 1 = some { payload := 42, timestamp := 1000 } ∧
    sweepCache witnessCache 2000 1 = some { payload := 42, timestamp := 1000 } := by
  have h := metadata_cache_ttl_invariants
  refine ⟨?_, ?_, ?_⟩
  · exact h.2.2.1 witnessCache 1 2000 { payload := 42, timestamp := 1000 } rfl (by decide)
  · exact h.2.2.2.2.2.1 witnessCache 5 2000 7 1 { payload := 42, timestamp := 1000 }
      rfl (by decide)
  · exact (h.2.2.2.2.2.2 witnessCache 2000 1 { payload := 42, timestamp := 1000 }).mpr
      ⟨rfl, by decide⟩

/-- C10: probing a direct file URL's size never fails the analysis
request: `getFileSize` returns null whenever the upstream HEAD request
errors or its response lacks a Content-Length header, and the direct-file
analysis response is then a 200 with fileSize null. -/
theorem getFileSize_null_on_probe_failure (h : HeadResult)
    (hbad : h = HeadResult.headErr ∨ h = HeadResult.headOk none) :
    getFileSize h = JsValue.nullv ∧
    (analyzeDirectFileResponse h).status = 200 ∧
    (analyzeDirectFileResponse h).fileSize = JsValue.nullv := by
  rcases hbad with hb | hb <;> subst hb <;>
    simp [getFileSize, analyzeDirectFileResponse]

/-- Witness for C10: a rejected HEAD request yields a 200 direct-file
response with fileSize null. -/
theorem getFileSize_null_on_probe_failure_witness :
    getFileSize HeadResult.headErr = JsValue.nullv ∧
    (analyzeDirectFileResponse HeadResult.headErr).status = 200 ∧
    (analyzeDirectFileResponse HeadResult.headErr).fileSize = JsValue.nullv :=
  getFileSize_null_on_probe_failure HeadResult.headErr (Or.inl rfl)

/-- The chunk size is at least 1 for a non-empty file. -/
theorem chunkSizeFor_pos (S n : Nat) (hS : 1 ≤ S) (hn : 1 ≤ n) :
    1 ≤ chunkSizeFor S n := by
  unfold chunkSizeFor
  rw [Nat.le_div_iff_mul_le hn]
  omega

/-- The n ranges of size ceil(S/n) cover the whole file. -/
theorem chunkSizeFor_covers (S n : Nat) (hn : 1 ≤ n) :
    S ≤ n * chunkSizeFor S n := by
  have h1 := Nat.div_add_mod (S + n - 1) n
  have h2 : (S + n - 1) % n < n := Nat.mod_lt _ hn
  unfold chunkSizeFor
  generalize hq : (S + n - 1) / n = q at h1 ⊢
  generalize hr : (S + n - 1) % n = r at h1 h2
  generalize hm : n * q = m at h1 ⊢
  omega

/-- Each parallel connection's buffer is exactly a take-after-drop slice of
width chunkSize (empty when its start is past the end of the file). -/
theorem speedBoostChunkBytes_eq_take (source : List Nat) (c i : Nat)
    (hc : 1 ≤ c) :
    speedBoostChunkBytes source c i = (source.drop (i * c)).take c := by
  unfold speedBoostChunkBytes speedBoostChunk rangeSlice
  by_cases h : source.length ≤ i * c
  · rw [if_pos h]
    rw [List.drop_eq_nil_of_le h]
    simp
  · rw [if_neg h]
    push_neg at h
    simp only [Option.getD_some]
    have hlen : (source.drop (i * c)).length = source.length - i * c :=
      List.length_drop _ _
    by_cases h2 : i * c + c - 1 ≤ source.length - 1
    · rw [min_eq_left h2]
      congr 1
      omega
    · rw [min_eq_right (le_of_not_le h2)]
      have hw : source.length - 1 + 1 - i * c = source.length - i * c := by
        omega
      rw [hw]
      rw [List.take_of_length_le (by rw [hlen])]
      rw [List.take_of_length_le (by rw [hlen]; omega)]

/-- The same buffer in the interval form of the claim: connection i holds
the bytes of [i*ceil(S/n), min((i+1)*ceil(S/n), S)). -/
theorem speedBoostChunkBytes_partition (source : List Nat) (n i : Nat)
    (hS : 1 ≤ source.length) (hn : 1 ≤ n) :
    speedBoostChunkBytes source (chunkSizeFor source.length n) i =
      (source.drop (i * chunkSizeFor source.length n)).take
        (min ((i + 1) * chunkSizeFor source.length n) source.length
          - i * chunkSizeFor source.length n) := by
  have hc := chunkSizeFor_pos source.length n hS hn
  rw [speedBoostChunkBytes_eq_take source _ i hc]
  have hsucc : (i + 1) * chunkSizeFor source.length n
      = i * chunkSizeFor source.length n + chunkSizeFor source.length n := by
    ring
  rw [hsucc]
  have hlen : (source.drop (i * chunkSizeFor source.length n)).length
      = source.length - i * chunkSizeFor source.length n :=
    List.length_drop _ _
  generalize hst : i * chunkSizeFor source.length n = start at hlen ⊢
  generalize hcc : chunkSizeFor source.length n = c at hc hlen ⊢
  by_cases h : start + c ≤ source.length
  · rw [min_eq_left h]
    have he : start + c - start = c := by omega
    rw [he]
  · rw [min_eq_right (le_of_not_le h)]
    have h1 : (source.drop start).take c = source.drop start :=
      List.take_of_length_le (by rw [hlen]; omega)
    have h2 : (source.drop start).take (source.length - start) = source.drop start :=
      List.take_of_length_le (by rw [hlen])
    rw [h1, h2]

/-- Concatenating optional buffers after dropping the null slots equals
concatenating with null slots read as empty. -/
theorem flatten_filterMap_getD (l : List (Option (List Nat))) :
    (l.filterMap id).flatten = (l.map (fun o => o.getD [])).flatten := by
  induction l with
  | nil => rfl
  | cons o t ih => cases o <;> simp [ih]

/-- Joining the n consecutive width-c slices of a list of length at most
n*c, in index order, reproduces the list. -/
theorem chunks_flatten_eq (c : Nat) (hc : 1 ≤ c) :
    ∀ (n : Nat) (source : List Nat), source.length ≤ n * c →
      ((List.range n).map (fun i => (source.drop (i * c)).take c)).flatten
        = source := by
  intro n
  induction n with
  | zero =>
      intro source h
      have hz : source.length = 0 := by simpa using h
      have : source = [] := List.length_eq_zero.mp hz
      simp [this]
  | succ n ih =>
      intro source h
      have hfs : ((fun i => (source.drop (i * c)).take c) ∘ Nat.succ)
          = fun i => ((source.drop c).drop (i * c)).take c := by
        funext i
        simp only [Function.comp_apply]
        have hd : Nat.succ i * c = c + i * c := by
          rw [Nat.succ_mul]
          exact Nat.add_comm (i * c) c
        rw [hd, List.drop_drop]
      rw [List.range_succ_eq_map]
      simp only [List.map_cons, List.map_map, List.flatten_cons,
        Nat.zero_mul, List.drop_zero]
      rw [hfs]
      have hbound : (source.drop c).length ≤ n * c := by
        rw [List.length_drop]
        have hs : (n + 1) * c = n * c + c := by ring
        rw [hs] at h
        omega
      rw [ih (source.drop c) hbound]
      exact List.take_append_drop c source

/-- The sequential read loop accumulates exactly the concatenation of the
arriving chunks. -/
theorem foldl_append_eq_flatten (l : List (List Nat)) :
    ∀ acc : List Nat, l.foldl (fun a c => a ++ c) acc = acc ++ l.flatten := by
  induction l with
  | nil => intro acc; simp
  | cons h t ih => intro acc; simp [ih, List.append_assoc]

/-- C2: for every file of S >= 1 bytes and every parallel-connection count
n from 1 to 8, the fan-out downloader partitions [0, S) into contiguous,
non-overlapping ranges — connection i holds exactly the bytes of
[i*ceil(S/n), min((i+1)*ceil(S/n), S)) — and concatenating the per-range
buffers in range-index order yields the same byte sequence as the
sequential single-stream downloader reading the same source (whatever
chunking the transport delivered it in). -/
theorem speed_boost_refines_sequential (source : List Nat) (n : Nat)
    (arrivals : List (List Nat))
    (hS : 1 ≤ source.length) (hn1 : 1 ≤ n) (hn8 : n ≤ 8)
    (hseq : arrivals.flatten = source) :
    (∀ i, i < n → speedBoostChunkBytes source (chunkSizeFor source.length n) i =
        (source.drop (i * chunkSizeFor source.length n)).take
          (min ((i + 1) * chunkSizeFor source.length n) source.length
            - i * chunkSizeFor source.length n)) ∧
    downloadWithSpeedBoost source n = downloadSequentially arrivals := by
  have hc := chunkSizeFor_pos source.length n hS hn1
  constructor
  · intro i _
    exact speedBoostChunkBytes_partition source n i hS hn1
  · unfold downloadWithSpeedBoost
    rw [flatten_filterMap_getD, List.map_map]
    have hfun : ((fun o => o.getD []) ∘ speedBoostChunk source (chunkSizeFor source.length n))
        = fun i => (source.drop (i * chunkSizeFor source.length n)).take
            (chunkSizeFor source.length n) := by
      funext i
      exact speedBoostChunkBytes_eq_take source _ i hc
    rw [hfun,
      chunks_flatten_eq (chunkSizeFor source.length n) hc n source
        (chunkSizeFor_covers source.length n hn1)]
    unfold downloadSequentially
    rw [foldl_append_eq_flatten, hseq]
    simp

/-- Witness for C2 at a 3-byte source split over 2 connections, with the
sequential stream delivering the same source in two arrival chunks. -/
theorem speed_boost_refines_sequential_witness :
    (∀ i, i < 2 →
        speedBoostChunkBytes [10, 20, 30] (chunkSizeFor ([10, 20, 30] : List Nat).length 2) i =
        (([10, 20, 30] : List Nat).drop (i * chunkSizeFor ([10, 20, 30] : List Nat).length 2)).take
          (min ((i + 1) * chunkSizeFor ([10, 20, 30] : List Nat).length 2)
              ([10, 20, 30] : List Nat).length
            - i * chunkSizeFor ([10, 20, 30] : List Nat).length 2)) ∧
    downloadWithSpeedBoost [10, 20, 30] 2 = downloadSequentially [[10], [20, 30]] :=
  speed_boost_refines_sequential [10, 20, 30] 2 [[10], [20, 30]]
    (by decide) (by decide) (by decide) (by decide)
